import Mathlib

/-!
# Verification of the exasyncio protocol session and result engine

Shallow embedding of the exasyncio client (src/exasyncio): the connection
state machine (`connection.py`), the response cycle `Connection._recv`,
the compression framing switch, `Connection.close`, and the result
streaming engine (`resultset.py` / `result.py`): pagination, the row
transform pipeline, and the HASHTYPE converters.

JSON values are modelled by `JValue`; a Python `str` used by the value
converters is modelled as `List Char`; Python `None` coincides with JSON
`null` (`JValue.null`) where the source stores whatever a `dict.get`
returned.
-/

set_option maxHeartbeats 1000000

namespace Exasyncio

/-- JSON values as returned by `json.loads`. Numbers are modelled as
integers (no claim involves fractional numeric literals). -/
inductive JValue where
  | null
  | bool (b : Bool)
  | num (n : Int)
  | str (s : String)
  | arr (items : List JValue)
  | obj (fields : List (String × JValue))

/-- Python `dict[key]` lookup on a decoded JSON object: for duplicate keys
`json.loads` keeps the last occurrence, hence the `foldl`. `none` models a
`KeyError`. -/
def objGet (kvs : List (String × JValue)) (k : String) : Option JValue :=
  kvs.foldl (fun acc p => if p.1 = k then some p.2 else acc) none

/-- Python `dict.get(key)` (default `None`): a missing key and a stored JSON
`null` both come back as Python `None`, i.e. `JValue.null`. -/
def pyGet (kvs : List (String × JValue)) (k : String) : JValue :=
  match objGet kvs k with
  | some v => v
  | none => JValue.null

/-- Python `dict.get(key, default)`: the default is used only when the key
is missing; a stored `null` is returned as-is. -/
def pyGetD (kvs : List (String × JValue)) (k : String) (d : JValue) : JValue :=
  match objGet kvs k with
  | some v => v
  | none => d

/-- Model of `ExaConnStatus` from `common.py`. -/
inductive ExaConnStatus where
  | CLOSED
  | WS_CONNECTED
  | CONNECTED
  | DISCONNECTING
  | CLOSING
deriving DecidableEq

/-- The mutable state of `Connection` (`connection.py`).  The dynamically
swapped `_recv_msg`/`_send_msg` function references are modelled by the two
booleans `recv_compressed`/`send_compressed` (initially the uncompressed
functions, i.e. `false`).  `_tz` holds the canonical name of the resolved
timezone (`ZoneInfo` object in the source) or `none`.  `ws`/`session` model
whether `_ws`/`_session` hold a live transport object. -/
structure Conn where
  status : ExaConnStatus
  date_format : JValue
  datetime_format : JValue
  tz : Option String
  autocommit : JValue
  use_compression : Bool
  send_compressed : Bool
  recv_compressed : Bool
  ws : Bool
  session : Bool

/-- Model of `Connection.__init__`: the fields relevant to the modelled behaviour. -/
def initConn (use_compression : Bool) (autocommit : Bool) : Conn :=
  { status := .CLOSED
    date_format := .null
    datetime_format := .null
    tz := none
    autocommit := .bool autocommit
    use_compression := use_compression
    send_compressed := false
    recv_compressed := false
    ws := false
    session := false }

/-- Python `str.upper()` for the ASCII zone names used by the timezone
database, mapped characterwise. -/
def pyUpper (s : String) : String :=
  String.mk (s.data.map Char.toUpper)

/-- Model of `_upper_zones = {z.upper(): z for z in zoneinfo.available_timezones()}`,
parameterised by the available canonical zone names. -/
def upperZones (zones : List String) : List (String × String) :=
  zones.map (fun z => (pyUpper z, z))

/-- Python `dict.get` on a string-keyed dict (last duplicate wins, as in a
dict comprehension). -/
def dictGetStr (d : List (String × String)) (k : String) : Option String :=
  d.foldl (fun acc p => if p.1 = k then some p.2 else acc) none

/-- Outcome of `Connection._recv` on one decoded response body.
`pyError` models an exception other than the deliberately raised
`ExaProtocolError`/`ExaServerError` escaping (e.g. `AttributeError` from
`data.get` on a non-dict, or `TypeError` from an unhashable dict key). -/
inductive RecvOutcome where
  | ok (data : JValue)
  | protocolError (msg : String)
  | serverError (code text : JValue)
  | pyError (msg : String)

/-- The attributes block of `Connection._recv` (lines 122-134 of
`connection.py`), applied to the connection state.  Returns the updated
state and whether a `TypeError` escaped (`_upper_zones.get(tz_name)` with an
unhashable `tz_name`, i.e. a JSON array/object).  Note the source looks up
`tz_name` as received — it does not uppercase it. -/
def applyConnAttrs (zones : List String) (c : Conn)
    (akvs : List (String × JValue)) : Conn × Bool :=
  let c1 := { c with
    date_format := pyGetD akvs "dateFormat" c.date_format
    datetime_format := pyGetD akvs "datetimeFormat" c.datetime_format }
  match pyGet akvs "timezone" with
  | .null => ({ c1 with autocommit := pyGetD akvs "autocommit" c1.autocommit }, false)
  | .str name =>
      ({ c1 with tz := dictGetStr (upperZones zones) name
                 autocommit := pyGetD akvs "autocommit" c1.autocommit }, false)
  | .bool _ =>
      ({ c1 with tz := none
                 autocommit := pyGetD akvs "autocommit" c1.autocommit }, false)
  | .num _ =>
      ({ c1 with tz := none
                 autocommit := pyGetD akvs "autocommit" c1.autocommit }, false)
  | _ => (c1, true)

/-- The attributes block of `Connection._recv` (lines 122-134):
`attrs = data.get("attributes")`, skipped entirely when absent or null,
applied when a dict, and an uncaught `AttributeError` (`true` flag)
otherwise. -/
def recvAttrsStep (zones : List String) (c : Conn)
    (kvs : List (String × JValue)) : Conn × Bool :=
  match pyGet kvs "attributes" with
  | .null => (c, false)
  | .obj akvs => applyConnAttrs zones c akvs
  | _ => (c, true)

/-- The envelope validation of `Connection._recv` (lines 135-151): the
status check and, for `status == "error"`, the exception payload check.
Only a JSON string can compare equal to `"ok"`/`"error"`. -/
def recvStatusStep (c1 : Conn) (kvs : List (String × JValue)) (data : JValue) :
    Conn × RecvOutcome :=
  match objGet kvs "status" with
  | none => (c1, .protocolError "Error retrieving status")
  | some st =>
    match st with
    | .str s =>
      if s = "ok" then (c1, .ok data)
      else if s = "error" then
        match objGet kvs "exception" with
        | some (.obj ekvs) =>
          match objGet ekvs "sqlCode", objGet ekvs "text" with
          | some code, some text => (c1, .serverError code text)
          | some _, none => (c1, .protocolError "Invalid or missing exception data")
          | none, _ => (c1, .protocolError "Invalid or missing exception data")
        | some _ => (c1, .pyError "TypeError")
        | none => (c1, .protocolError "Invalid or missing exception data")
      else (c1, .protocolError "Invalid status")
    | _ => (c1, .protocolError "Invalid status")

/-- Model of `Connection._recv` (`connection.py` lines 115-151) applied to
the decoded response body; `none` models a `json.loads` failure.  The
attribute update runs before the status check.  `data["status"]` is wrapped
in `except BaseException`, so a missing key or a non-dict subscript both
give the protocol error; `data.get("attributes")` is not guarded at all, so
a non-dict body gives an uncaught `AttributeError` before the status check
is ever reached. -/
def recvStep (zones : List String) (c : Conn) (decoded : Option JValue) :
    Conn × RecvOutcome :=
  match decoded with
  | none => (c, .protocolError "Invalid json")
  | some data =>
    match data with
    | .obj kvs =>
      match recvAttrsStep zones c kvs with
      | (c1, true) => (c1, .pyError "AttributeError")
      | (c1, false) => recvStatusStep c1 kvs data
    | _ => (c, .pyError "AttributeError")

/-- Whether an outcome is the deliberately raised `ExaProtocolError`. -/
def RecvOutcome.isProtocolError : RecvOutcome → Bool
  | .protocolError _ => true
  | _ => false

/-- The error taxonomy as raised by `Connection`: `usage` is the
`ValueError` of an invalid state transition, `protocol`/`server` the
dedicated exception classes, `py` an escaping host exception. -/
inductive ConnErr where
  | usage (msg : String)
  | protocol (msg : String)
  | server (code text : JValue)
  | py (msg : String)

/-- The error, if any, carried by a `_recv` outcome. -/
def outcomeErr : RecvOutcome → Option ConnErr
  | .ok _ => none
  | .protocolError m => some (.protocol m)
  | .serverError code text => some (.server code text)
  | .pyError m => some (.py m)

/-- Model of `Connection._connect`: valid only from `CLOSED`; otherwise raises the
usage error before any state mutation.  On success a fresh client session
and websocket are created and the status becomes `WS_CONNECTED`. -/
def connectConn (c : Conn) : Except String Conn :=
  if c.status = .CLOSED then
    .ok { c with session := true, ws := true, status := .WS_CONNECTED }
  else
    .error "Connection is already connected"

/-- Model of `Connection._request`: send the command with the current framing, then
receive one response.  With `_ws` unset (`None`), `self._ws.send_str`
raises `AttributeError` before anything is sent.  The third component lists
the framing (compressed?) of each frame actually sent. -/
def requestOp (zones : List String) (c : Conn) (resp : Option JValue) :
    Conn × RecvOutcome × List Bool :=
  if c.ws then
    let r := recvStep zones c resp
    (r.1, r.2, [c.send_compressed])
  else
    (c, .pyError "AttributeError", [])

/-- Model of `Connection._login` (`connection.py` lines 168-194): the two-request
handshake, parameterised by the two decoded response bodies.  After the
second request succeeds, and only then, the framing functions are swapped
when compression was requested; then the date format is set to the
canonical ISO form and the status becomes `CONNECTED`.  Returns the state,
the error (if any), and the framings of the frames sent. -/
def loginConn (zones : List String) (c : Conn) (r1 r2 : Option JValue) :
    Conn × Option ConnErr × List Bool :=
  if c.status = .WS_CONNECTED then
    let q1 := requestOp zones c r1
    match q1.2.1 with
    | .ok d1 =>
      match d1 with
      | .obj kvs1 =>
        match objGet kvs1 "responseData" with
        | some (.obj rd) =>
          match objGet rd "publicKeyPem" with
          | some _pem =>
            let q2 := requestOp zones q1.1 r2
            match q2.2.1 with
            | .ok _ =>
              let c3 :=
                if q2.1.use_compression then
                  { q2.1 with recv_compressed := true, send_compressed := true }
                else q2.1
              ({ c3 with date_format := .str "YYYY-MM-DD", status := .CONNECTED },
               none, q1.2.2 ++ q2.2.2)
            | o2 => (q2.1, outcomeErr o2, q1.2.2 ++ q2.2.2)
          | none => (q1.1, some (.py "KeyError"), q1.2.2)
        | some _ => (q1.1, some (.py "TypeError"), q1.2.2)
        | none => (q1.1, some (.py "KeyError"), q1.2.2)
      | _ => (q1.1, some (.py "AttributeError"), q1.2.2)
    | o1 => (q1.1, outcomeErr o1, q1.2.2)
  else if c.status = .CLOSED then
    (c, some (.usage "Connection is closed"), [])
  else
    (c, some (.usage "Connection is logged in"), [])

/-- Model of `Connection.close` (`connection.py` lines 253-271): if `CONNECTED`,
move to `DISCONNECTING` and best-effort send a `disconnect` request whose
failure — any failure, including a missing transport — is swallowed (but
whose received attributes, if any, are still applied by `_recv`); then move
through `CLOSING`, null and close the websocket, set `CLOSED`, and null and
close the client session. -/
def closeConn (zones : List String) (c : Conn) (resp : Option JValue) : Conn :=
  { (if c.status = .CONNECTED then
       (if c.ws then (recvStep zones { c with status := .DISCONNECTING } resp).1
        else { c with status := .DISCONNECTING })
     else c) with
    status := .CLOSED, ws := false, session := false }

/-- The frames sent by one `close()` call: the `disconnect` command is
attempted only from `CONNECTED`, and actually hits the wire only when the
websocket is still present. -/
def closeSends (c : Conn) : List Bool :=
  if c.status = .CONNECTED ∧ c.ws then [c.send_compressed] else []

/-- Folding `close()` over a list of per-call `disconnect` responses. -/
def closeN (zones : List String) (c : Conn) (rs : List (Option JValue)) : Conn :=
  rs.foldl (fun acc r => closeConn zones acc r) c

/-- Model of `Connection.__await__` / `_await`: connect, login, request attributes;
any failure triggers `close()` before the error propagates.  `r1`/`r2` are
the login responses, `r3` the `getAttributes` response, and `rd` the
response consumed by a best-effort `disconnect` during the cleanup close. -/
def awaitConn (zones : List String) (c : Conn) (r1 r2 r3 rd : Option JValue) :
    Conn × Option ConnErr :=
  match connectConn c with
  | .error m => (closeConn zones c rd, some (.usage m))
  | .ok cA =>
    let l := loginConn zones cA r1 r2
    match l.2.1 with
    | some err => (closeConn zones l.1 rd, some err)
    | none =>
      let q := requestOp zones l.1 r3
      match outcomeErr q.2.1 with
      | some err => (closeConn zones q.1 rd, some err)
      | none => (q.1, none)

/-- One client-visible operation on a `Connection`, carrying the decoded
response bodies the server would deliver for it. -/
inductive ConnOp where
  | cConnect
  | cLogin (r1 r2 : Option JValue)
  | cGetAttributes (r : Option JValue)
  | cExecute (r : Option JValue)
  | cFetch (r : Option JValue)
  | cCloseResults (r : Option JValue)
  | cClose (r : Option JValue)

/-- Step semantics over `Conn`: the state after one operation and the
framing of each frame it sent.  Errors leave the state the operation
reached (exceptions in the source do not roll state back). -/
def stepConn (zones : List String) (c : Conn) : ConnOp → Conn × List Bool
  | .cConnect =>
    match connectConn c with
    | .ok c' => (c', [])
    | .error _ => (c, [])
  | .cLogin r1 r2 =>
    let l := loginConn zones c r1 r2
    (l.1, l.2.2)
  | .cGetAttributes r =>
    let q := requestOp zones c r
    (q.1, q.2.2)
  | .cExecute r =>
    let q := requestOp zones c r
    (q.1, q.2.2)
  | .cFetch r =>
    let q := requestOp zones c r
    (q.1, q.2.2)
  | .cCloseResults r =>
    if c.status = .CONNECTED then
      let q := requestOp zones c r
      (q.1, q.2.2)
    else (c, [])
  | .cClose r => (closeConn zones c r, closeSends c)

/-- Running a list of operations, collecting all send framings in order. -/
def runConn (zones : List String) (c : Conn) : List ConnOp → Conn × List Bool
  | [] => (c, [])
  | op :: rest =>
    let s := stepConn zones c op
    let r := runConn zones s.1 rest
    (r.1, s.2 ++ r.2)

/-- Whether a `login` with these responses succeeds from this state. -/
def loginOk (zones : List String) (c : Conn) (r1 r2 : Option JValue) : Bool :=
  (loginConn zones c r1 r2).2.1.isNone

/-- Whether the operation is a successful login from this state. -/
def opLoginSuccess (zones : List String) (c : Conn) : ConnOp → Bool
  | .cLogin r1 r2 => loginOk zones c r1 r2
  | _ => false

/-- Whether some operation of the trace is a successful login. -/
def anyLoginSuccess (zones : List String) (c : Conn) : List ConnOp → Bool
  | [] => false
  | op :: rest =>
    opLoginSuccess zones c op ||
      anyLoginSuccess zones (stepConn zones c op).1 rest

/-! ## Row transposition and the conversion pipeline (`resultset.py`) -/

/-- Length of the shortest column; `zip(*data)` stops at it. -/
def minLen : List (List α) → Nat
  | [] => 0
  | [col] => col.length
  | col :: rest => min col.length (minLen rest)

/-- Python `zip(*data)`: transpose the column-major arrays into rows,
truncated at the shortest column.  `zip()` with no arguments (no columns)
yields nothing. -/
def pyZip (cols : List (List α)) : List (List α) :=
  match cols with
  | [] => []
  | _ => (List.range (minLen cols)).map (fun i => cols.filterMap (fun col => col[i]?))

/-- The per-row body of `Result._transform_rows`:
`tuple(val if conv is None else conv(val) for conv, val in zip(self._converters, row))`.
The inner `zip` truncates at the shorter of the two lists. -/
def applyConvs (convs : List (Option (α → α))) (row : List α) : List α :=
  (List.zip convs row).map (fun p =>
    match p.1 with
    | none => p.2
    | some f => f p.2)

/-- Model of `Result._transform_rows` (`resultset.py` lines 112-118): transpose the
column arrays and convert each value with its column's converter. -/
def transformRows (convs : List (Option (α → α))) (data : List (List α)) :
    List (List α) :=
  (pyZip data).map (fun row => applyConvs convs row)

/-! ## The paginated fetch loop (`Result._aiterate`, handle case) -/

/-- One page as returned by a `fetch` round trip (`responseData`):
the column-major `data` payload and the `numRows` of this page. -/
structure FetchPage (α : Type) where
  pdata : List (List α)
  numRows : Nat

/-- The fetch loop of `Result._aiterate` (`resultset.py` lines 125-131):
starting at row offset `offset`, while `offset < rowcount` fetch the page at
`offset`, yield its transformed rows, and advance by the page's `numRows`.
The source's `while` loop is modelled with explicit fuel; `none` means the
fuel ran out (i.e. the loop would still be running).  Returns the number of
fetch calls issued and the yielded rows, in order. -/
def fetchLoopFuel (fetchFn : Nat → FetchPage α)
    (transform : List (List α) → List (List α)) (rowcount : Nat) :
    Nat → Nat → Option (Nat × List (List α))
  | 0, _ => none
  | fuel + 1, offset =>
    if offset < rowcount then
      let page := fetchFn offset
      match fetchLoopFuel fetchFn transform rowcount fuel (offset + page.numRows) with
      | none => none
      | some (calls, rest) => some (calls + 1, transform page.pdata ++ rest)
    else
      some (0, [])

/-- The concatenation, in order, of `n` transformed pages starting at page
index `j` (page `i` holding the rows fetched at offset `i * K`). -/
def pagesConcat (pageRows : Nat → List β) : Nat → Nat → List β
  | _, 0 => []
  | j, n + 1 => pageRows j ++ pagesConcat pageRows (j + 1) n

/-! ## Result state and forward-only iteration (`resultset.py`) -/

/-- Model of `ResultType` from `resultset.py`. -/
inductive ResultType where
  | RESULTSET
  | ROWCOUNT
deriving DecidableEq

/-- The mutable state of a `Result`.  `aiterator` models the cached row
producer created by the first `__aiter__` call: `none` before creation,
`some remaining` afterwards, where `remaining` are the rows it has not yet
yielded (`some []` is an exhausted, finished producer). -/
structure ResultM (α : Type) where
  result_type : ResultType
  rdata : Option (List (List α))
  result_handle : Option Nat
  rowcount : Nat
  aiterator : Option (List (List α))

/-- The close-on-exhaustion effect at the end of `Result._aiterate` (via
`Result.close`): the handle is released and nulled and the inline data is
cleared.  The `closeResultSet` request it may issue on the connection is
not observed here. -/
def finishClose (r : ResultM α) : ResultM α :=
  { r with result_handle := none, rdata := none }

/-- Outcome of driving the row producer: `raised` is the `ValueError` of
iterating a `ROWCOUNT` result, `diverge` a fetch loop that makes no
progress. -/
inductive RunRes (α : Type) where
  | ok (val : α)
  | raised (msg : String)
  | diverge

/-- The full row sequence `Result._aiterate` would yield, computed eagerly
(`resultset.py` lines 120-137): an error for a `ROWCOUNT` result; the fetch
loop when a handle is present; the transformed inline data otherwise (or
nothing when the data was already cleared). -/
def aiterateRows (fetchFn : Nat → FetchPage α)
    (transform : List (List α) → List (List α)) (r : ResultM α) :
    RunRes (List (List α)) :=
  if r.result_type ≠ ResultType.RESULTSET then .raised "Result has no data"
  else
    match r.result_handle with
    | some _ =>
      match fetchLoopFuel fetchFn transform r.rowcount (r.rowcount + 1) 0 with
      | some (_, rows) => .ok rows
      | none => .diverge
    | none =>
      match r.rdata with
      | some d => .ok (transform d)
      | none => .ok []

/-- Model of `Result.fetchone`: pull one row from the cached producer, creating it on
first use (`__aiter__`).  A fresh producer with no rows runs to completion
(including its close); one with rows suspends after the first yield. -/
def fetchoneM (fetchFn : Nat → FetchPage α)
    (transform : List (List α) → List (List α)) (r : ResultM α) :
    RunRes (Option (List α) × ResultM α) :=
  match r.aiterator with
  | some [] => .ok (none, r)
  | some (x :: xs) => .ok (some x, { r with aiterator := some xs })
  | none =>
    match aiterateRows fetchFn transform r with
    | .ok [] => .ok (none, finishClose { r with aiterator := some ([] : List (List α)) })
    | .ok (x :: xs) => .ok (some x, { r with aiterator := some xs })
    | .raised m => .raised m
    | .diverge => .diverge

/-- Model of `Result.fetchall`: drain the cached producer, creating it on first use.
Draining a producer that still had rows finishes it, which runs the
close-on-exhaustion effect; a producer that had already finished yields
nothing and has no further effect. -/
def fetchallM (fetchFn : Nat → FetchPage α)
    (transform : List (List α) → List (List α)) (r : ResultM α) :
    RunRes (List (List α) × ResultM α) :=
  match r.aiterator with
  | some [] => .ok ([], r)
  | some (x :: xs) =>
    .ok (x :: xs, finishClose { r with aiterator := some ([] : List (List α)) })
  | none =>
    match aiterateRows fetchFn transform r with
    | .ok rows => .ok (rows, finishClose { r with aiterator := some ([] : List (List α)) })
    | .raised m => .raised m
    | .diverge => .diverge

/-! ## HASHTYPE value converters

The converters operate on Python strings, modelled as `List Char`.
Both drafts are embedded: `getHash` from `resultset.py` (the module
`connection.py` imports) and `getHashtypeConverter` from `result.py`. -/

/-- Hexadecimal digit test, as accepted by `int(_, 16)`/`bytes.fromhex`. -/
def isHexDigitB (c : Char) : Bool :=
  c.isDigit || ('a' ≤ c && c ≤ 'f') || ('A' ≤ c && c ≤ 'F')

/-- Numeric value of a hexadecimal digit. -/
def hexDigitVal (c : Char) : Option Nat :=
  if c.isDigit then some (c.toNat - 48)
  else if 'a' ≤ c && c ≤ 'f' then some (c.toNat - 87)
  else if 'A' ≤ c && c ≤ 'F' then some (c.toNat - 55)
  else none

/-- Decode a hex string two digits per byte; `none` models the
`ValueError` on a non-hex digit or an odd digit count. -/
def hexPairs : List Char → Option (List Nat)
  | [] => some []
  | [_] => none
  | c1 :: c2 :: rest =>
    match hexDigitVal c1, hexDigitVal c2, hexPairs rest with
    | some hi, some lo, some bs => some ((hi * 16 + lo) :: bs)
    | _, _, _ => none

/-- Python `bytes.fromhex` (for inputs without embedded whitespace, the
only form the protocol delivers). -/
def bytesFromHex (s : List Char) : Option (List Nat) :=
  hexPairs s

/-- Python `str.replace(pat, '')`: remove every occurrence of `pat`,
scanning left to right.  Fuel equals the scanned length, which suffices
for any non-empty pattern. -/
def replaceAllAux (pat : List Char) : Nat → List Char → List Char
  | _, [] => []
  | 0, s => s
  | fuel + 1, c :: rest =>
    if pat ≠ [] ∧ pat.isPrefixOf (c :: rest) then
      replaceAllAux pat fuel ((c :: rest).drop pat.length)
    else
      c :: replaceAllAux pat fuel rest

/-- Remove every occurrence of `pat` from `s` (Python `s.replace(pat, '')`). -/
def replaceAll (pat s : List Char) : List Char :=
  replaceAllAux pat s.length s

/-- Whether a character is an ASCII brace. -/
def isBraceChar (c : Char) : Bool :=
  c = Char.ofNat 123 || c = Char.ofNat 125

/-- Python `str.strip` with the two brace characters: drop braces from both
ends. -/
def stripBraces (s : List Char) : List Char :=
  ((s.dropWhile isBraceChar).reverse.dropWhile isBraceChar).reverse

/-- The `urn:` pattern stripped by `uuid.UUID`. -/
def urnPat : List Char := ['u', 'r', 'n', ':']

/-- The `uuid:` pattern stripped by `uuid.UUID`. -/
def uuidPat : List Char := ['u', 'u', 'i', 'd', ':']

/-- Python `uuid.UUID(s)`: strip the `urn:`/`uuid:` markers and surrounding
braces, remove dashes, require exactly 32 hex digits, and take the 128-bit
value (represented as its 16 big-endian bytes).  `none` models the
`ValueError`. -/
def uuidFromChars (s : List Char) : Option (List Nat) :=
  let h := replaceAll ['-'] (stripBraces (replaceAll uuidPat (replaceAll urnPat s)))
  if h.length = 32 then hexPairs h else none

/-- A converted HASHTYPE value: either a UUID (16 bytes of the 128-bit
value) or a raw byte string. -/
inductive HashVal where
  | uuidVal (bytes : List Nat)
  | bytesVal (bytes : List Nat)

/-- Model of `_get_bytes_or_uuid` (`result.py` lines 35-44): used for size
32 (16 bytes hex); a 36-character value (32 hex digits + 4 dashes, the
`HASHTYPE_FORMAT = 'UUID'` form) becomes a UUID, anything else is
hex-decoded.  `none` models an escaping `ValueError`. -/
def getBytesOrUuid (val : List Char) : Option HashVal :=
  if val.length = 36 then (uuidFromChars val).map .uuidVal
  else (bytesFromHex val).map .bytesVal

/-- Model of `_get_hashtype_converter` (`result.py` lines 47-50): dispatch
on the declared `size` attribute of the column's data type. -/
def getHashtypeConverter (size : Nat) : List Char → Option HashVal :=
  if size = 32 then getBytesOrUuid
  else fun val => (bytesFromHex val).map .bytesVal

/-- Model of `_get_hash` (`resultset.py` lines 27-31): a dashed value
becomes a UUID, anything else is hex-decoded. -/
def getHash (val : List Char) : Option HashVal :=
  if '-' ∈ val then (uuidFromChars val).map .uuidVal
  else (bytesFromHex val).map .bytesVal

/-! ## Well-formedness side conditions for responses -/

/-- The `timezone` attribute value, when present, is hashable (not a JSON
array/object), so `_upper_zones.get(tz_name)` does not raise `TypeError`. -/
def tzOkay (akvs : List (String × JValue)) : Prop :=
  match pyGet akvs "timezone" with
  | .arr _ => False
  | .obj _ => False
  | _ => True

/-- The `attributes` member, when present and non-null, is an object with a
hashable `timezone` value, so the attribute block raises nothing. -/
def attrsOkay (kvs : List (String × JValue)) : Prop :=
  match pyGet kvs "attributes" with
  | .null => True
  | .obj akvs => tzOkay akvs
  | _ => False

/-! ## Lemmas about the response cycle -/

lemma applyConnAttrs_snd (zones : List String) (c : Conn)
    (akvs : List (String × JValue)) (h : tzOkay akvs) :
    (applyConnAttrs zones c akvs).2 = false := by
  unfold tzOkay at h
  unfold applyConnAttrs
  cases hv : pyGet akvs "timezone" <;> simp_all

lemma recvAttrsStep_snd (zones : List String) (c : Conn)
    (kvs : List (String × JValue)) (h : attrsOkay kvs) :
    (recvAttrsStep zones c kvs).2 = false := by
  unfold attrsOkay at h
  unfold recvAttrsStep
  cases hv : pyGet kvs "attributes" <;> simp_all
  exact applyConnAttrs_snd _ _ _ h

lemma recvStep_obj (zones : List String) (c : Conn)
    (kvs : List (String × JValue)) (h : attrsOkay kvs) :
    recvStep zones c (some (.obj kvs)) =
      recvStatusStep (recvAttrsStep zones c kvs).1 kvs (.obj kvs) := by
  have h2 := recvAttrsStep_snd zones c kvs h
  rcases hA : recvAttrsStep zones c kvs with ⟨c1, b⟩
  rw [hA] at h2
  subst h2
  simp [recvStep, hA]

lemma recvStatusStep_fst (c1 : Conn) (kvs : List (String × JValue))
    (data : JValue) : (recvStatusStep c1 kvs data).1 = c1 := by
  unfold recvStatusStep
  repeat' split
  all_goals rfl

/-- **C1** (amended): for every received response whose body decodes to a
JSON object — with a well-formed `attributes` member and, when status is
"error", an exception field that is absent or an object — the request cycle
raises a protocol error if the body is not valid JSON, if the object has no
`status` field, or if the status value is neither "ok" nor "error"; if
status is "error" it raises a protocol error when `exception.sqlCode` or
`exception.text` is missing and otherwise a server error carrying exactly
that code and message; if status is "ok" the decoded object is returned
and no error is raised.  (As literally stated the claim fails on bodies
that are valid JSON but not objects: see the counterexample.) -/
theorem c1_recv_envelope (zones : List String) (c : Conn) :
    recvStep zones c none = (c, .protocolError "Invalid json")
    ∧ ∀ kvs, attrsOkay kvs →
      (objGet kvs "status" = none →
        (recvStep zones c (some (.obj kvs))).2 =
          .protocolError "Error retrieving status")
      ∧ (∀ st, objGet kvs "status" = some st →
          st ≠ .str "ok" → st ≠ .str "error" →
          (recvStep zones c (some (.obj kvs))).2 = .protocolError "Invalid status")
      ∧ (objGet kvs "status" = some (.str "ok") →
          (recvStep zones c (some (.obj kvs))).2 = .ok (.obj kvs))
      ∧ (objGet kvs "status" = some (.str "error") →
          (objGet kvs "exception" = none →
            (recvStep zones c (some (.obj kvs))).2 =
              .protocolError "Invalid or missing exception data")
          ∧ ∀ ekvs, objGet kvs "exception" = some (.obj ekvs) →
            ((objGet ekvs "sqlCode" = none ∨ objGet ekvs "text" = none) →
              (recvStep zones c (some (.obj kvs))).2 =
                .protocolError "Invalid or missing exception data")
            ∧ (∀ code text, objGet ekvs "sqlCode" = some code →
                objGet ekvs "text" = some text →
                (recvStep zones c (some (.obj kvs))).2 = .serverError code text)) := by
  refine ⟨rfl, ?_⟩
  intro kvs hwf
  rw [recvStep_obj zones c kvs hwf]
  refine ⟨?_, ?_, ?_, ?_⟩
  · intro hst
    simp [recvStatusStep, hst]
  · intro st hst hok herr
    cases st with
    | str s =>
      have hs1 : s ≠ "ok" := by
        intro h
        exact hok (by rw [h])
      have hs2 : s ≠ "error" := by
        intro h
        exact herr (by rw [h])
      simp [recvStatusStep, hst, hs1, hs2]
    | null => simp [recvStatusStep, hst]
    | bool b => simp [recvStatusStep, hst]
    | num n => simp [recvStatusStep, hst]
    | arr a => simp [recvStatusStep, hst]
    | obj o => simp [recvStatusStep, hst]
  · intro hst
    simp [recvStatusStep, hst]
  · intro hst
    constructor
    · intro hexc
      simp [recvStatusStep, hst, hexc]
    · intro ekvs hexc
      constructor
      · rintro (hc | ht)
        · simp [recvStatusStep, hst, hexc, hc]
        · rcases hsc : objGet ekvs "sqlCode" with _ | code
          · simp [recvStatusStep, hst, hexc, hsc]
          · simp [recvStatusStep, hst, hexc, hsc, ht]
      · intro code text hc ht
        simp [recvStatusStep, hst, hexc, hc, ht]

/-- Counterexample to **C1** as stated: the body `[]` is valid JSON and has
no `status` field, so the claim requires a protocol error, but
`data.get("attributes")` raises an uncaught `AttributeError` before the
status check is reached. -/
theorem c1_nonobject_body_not_protocol_error :
    (recvStep [] (initConn true true) (some (.arr []))).2 = .pyError "AttributeError"
    ∧ ((recvStep [] (initConn true true) (some (.arr []))).2.isProtocolError = false) :=
  ⟨rfl, rfl⟩

/-- Witness for **C1**: a concrete malformed-status response and a concrete
server-error response behave as the amended claim states. -/
theorem c1_recv_envelope_witness :
    (recvStep [] (initConn true true)
        (some (.obj [("status", .str "nonsense")]))).2 =
      .protocolError "Invalid status"
    ∧ (recvStep [] (initConn true true)
        (some (.obj [("status", .str "error"),
          ("exception", .obj [("sqlCode", .str "08004"),
            ("text", .str "bad credentials")])]))).2 =
      .serverError (.str "08004") (.str "bad credentials") := by
  constructor
  · exact ((c1_recv_envelope [] (initConn true true)).2
      [("status", .str "nonsense")] trivial).2.1 (.str "nonsense") rfl
      (by simp) (by simp)
  · exact ((((c1_recv_envelope [] (initConn true true)).2
      [("status", .str "error"),
       ("exception", .obj [("sqlCode", .str "08004"),
         ("text", .str "bad credentials")])] trivial).2.2.2 rfl).2
      [("sqlCode", .str "08004"), ("text", .str "bad credentials")] rfl).2
      (.str "08004") (.str "bad credentials") rfl rfl

/-- **C2** (code bug evidence): with canonical zone `Europe/Berlin`
available, a response carrying the name in its canonical or lower-case
spelling resolves to nothing, because `_recv` looks the received name up
as-is against the uppercased keys of `_upper_zones` (missing `.upper()`);
only the fully uppercased spelling resolves.  So resolution is not
case-insensitive as claimed.  The claim's second half does hold: an
unknown name sets the timezone to `none` and the response still succeeds. -/
theorem c2_tz_lookup_not_case_insensitive :
    ((recvStep ["Europe/Berlin"] (initConn true true)
        (some (.obj [("status", .str "ok"),
          ("attributes", .obj [("timezone", .str "Europe/Berlin")])]))).1.tz = none)
    ∧ ((recvStep ["Europe/Berlin"] (initConn true true)
        (some (.obj [("status", .str "ok"),
          ("attributes", .obj [("timezone", .str "europe/berlin")])]))).1.tz = none)
    ∧ ((recvStep ["Europe/Berlin"] (initConn true true)
        (some (.obj [("status", .str "ok"),
          ("attributes", .obj [("timezone", .str "EUROPE/BERLIN")])]))).1.tz =
        some "Europe/Berlin")
    ∧ ((recvStep ["Europe/Berlin"] (initConn true true)
        (some (.obj [("status", .str "ok"),
          ("attributes", .obj [("timezone", .str "Mars/Olympus")])]))).1.tz = none)
    ∧ ((recvStep ["Europe/Berlin"] (initConn true true)
        (some (.obj [("status", .str "ok"),
          ("attributes", .obj [("timezone", .str "Mars/Olympus")])]))).2 =
        .ok (.obj [("status", .str "ok"),
          ("attributes", .obj [("timezone", .str "Mars/Olympus")])])) := by
  exact ⟨rfl, rfl, rfl, rfl, rfl⟩

/-- **C10** (confirmed): whenever a decoded response object carries an
`attributes` object (with a hashable timezone value), the session's date
format, datetime format, resolved timezone and autocommit fields are
updated from it — regardless of what the envelope validation then does,
since the update runs first and no error rolls it back. -/
theorem c10_attrs_applied_before_validation (zones : List String) (c : Conn)
    (kvs akvs : List (String × JValue))
    (hA : pyGet kvs "attributes" = .obj akvs) (htz : tzOkay akvs) :
    (recvStep zones c (some (.obj kvs))).1 =
      { c with
        date_format := pyGetD akvs "dateFormat" c.date_format
        datetime_format := pyGetD akvs "datetimeFormat" c.datetime_format
        tz := (match pyGet akvs "timezone" with
               | .null => c.tz
               | .str name => dictGetStr (upperZones zones) name
               | _ => none)
        autocommit := pyGetD akvs "autocommit" c.autocommit } := by
  have hwf : attrsOkay kvs := by
    unfold attrsOkay
    rw [hA]
    exact htz
  rw [recvStep_obj zones c kvs hwf, recvStatusStep_fst]
  unfold recvAttrsStep
  rw [hA]
  unfold tzOkay at htz
  unfold applyConnAttrs
  cases hv : pyGet akvs "timezone" with
  | null => simp [hv]
  | str name => simp [hv]
  | bool b => simp [hv]
  | num n => simp [hv]
  | arr a => rw [hv] at htz; exact htz.elim
  | obj o => rw [hv] at htz; exact htz.elim

/-- Witness for **C10**: a concrete response whose envelope is a server
error still updates date format, timezone and autocommit. -/
theorem c10_attrs_applied_witness :
    (recvStep ["Europe/Berlin"] (initConn true true)
        (some (.obj [("attributes", .obj [("dateFormat", .str "DD-MM-YYYY"),
            ("timezone", .str "EUROPE/BERLIN"), ("autocommit", .bool false)]),
          ("status", .str "error"),
          ("exception", .obj [("sqlCode", .str "42"), ("text", .str "boom")])]))).1 =
      { initConn true true with
        date_format := .str "DD-MM-YYYY"
        tz := some "Europe/Berlin"
        autocommit := .bool false } := by
  have h := c10_attrs_applied_before_validation ["Europe/Berlin"] (initConn true true)
    [("attributes", .obj [("dateFormat", .str "DD-MM-YYYY"),
        ("timezone", .str "EUROPE/BERLIN"), ("autocommit", .bool false)]),
      ("status", .str "error"),
      ("exception", .obj [("sqlCode", .str "42"), ("text", .str "boom")])]
    [("dateFormat", .str "DD-MM-YYYY"),
      ("timezone", .str "EUROPE/BERLIN"), ("autocommit", .bool false)]
    rfl trivial
  rw [h]
  rfl

/-! ## Close idempotence and reconnect behaviour -/

lemma closeConn_idem (zones : List String) (c : Conn) (r r' : Option JValue) :
    closeConn zones (closeConn zones c r) r' = closeConn zones c r :=
  rfl

lemma foldl_close_fixed (zones : List String) (rest : List (Option JValue)) :
    ∀ (c : Conn) (r : Option JValue),
      List.foldl (fun acc x => closeConn zones acc x) (closeConn zones c r) rest =
        closeConn zones c r := by
  induction rest with
  | nil => intro c r; rfl
  | cons r' rs ih =>
    intro c r
    have h1 : List.foldl (fun acc x => closeConn zones acc x)
        (closeConn zones c r) (r' :: rs) =
        List.foldl (fun acc x => closeConn zones acc x)
          (closeConn zones (closeConn zones c r) r') rs := rfl
    rw [h1, closeConn_idem]
    exact ih c r

/-- **C6** (confirmed): from any session state, any non-empty sequence of
`close()` calls (each consuming whatever `disconnect` response, if any, the
server produces, including failures — which are swallowed) never raises,
ends with the session `CLOSED` with transport handles released, and its
result equals that of the first call alone.  After the first call no
further `disconnect` is sent, and when the session was not `CONNECTED` a
single call sends nothing and only moves to `CLOSED` releasing the
handles. -/
theorem c6_close_idempotent (zones : List String) (c : Conn)
    (r : Option JValue) (rest : List (Option JValue)) :
    closeN zones c (r :: rest) = closeConn zones c r
    ∧ (closeConn zones c r).status = .CLOSED
    ∧ (closeConn zones c r).ws = false
    ∧ (closeConn zones c r).session = false
    ∧ closeSends (closeConn zones c r) = []
    ∧ (c.status ≠ .CONNECTED →
        closeConn zones c r =
          { c with status := .CLOSED, ws := false, session := false }) := by
  refine ⟨foldl_close_fixed zones rest c r, rfl, rfl, rfl, rfl, ?_⟩
  intro h
  unfold closeConn
  rw [if_neg h]

/-- Witness for **C6**: three consecutive closes of a concrete connected
session equal one close, and a close from `CLOSED` is the pure handle
release. -/
theorem c6_close_idempotent_witness :
    closeN [] { initConn true true with status := .CONNECTED, ws := true, session := true }
        [none, some (.obj [("status", .str "ok")]), none] =
      closeConn [] { initConn true true with status := .CONNECTED, ws := true, session := true }
        none
    ∧ closeConn [] (initConn true true) (some (.obj [("status", .str "ok")])) =
      { initConn true true with status := .CLOSED, ws := false, session := false } :=
  ⟨(c6_close_idempotent [] _ none [some (.obj [("status", .str "ok")]), none]).1,
   (c6_close_idempotent [] (initConn true true) (some (.obj [("status", .str "ok")]))
      []).2.2.2.2.2 (by decide)⟩

/-- **C3** (amended): awaiting an already-connected session (any state
other than `CLOSED`) raises the usage error — the `_connect` check itself
fires before any mutation — but before the error propagates the session is
closed by the cleanup path of `__await__`, ending `CLOSED` with the
transport handles released, rather than with its state untouched. -/
theorem c3_connect_when_not_closed (zones : List String) (c : Conn)
    (r1 r2 r3 rd : Option JValue) (h : c.status ≠ .CLOSED) :
    awaitConn zones c r1 r2 r3 rd =
      (closeConn zones c rd, some (.usage "Connection is already connected"))
    ∧ connectConn c = .error "Connection is already connected"
    ∧ (awaitConn zones c r1 r2 r3 rd).1.status = .CLOSED
    ∧ (awaitConn zones c r1 r2 r3 rd).1.ws = false
    ∧ (awaitConn zones c r1 r2 r3 rd).1.session = false := by
  have hc : connectConn c = .error "Connection is already connected" := by
    unfold connectConn
    rw [if_neg h]
  refine ⟨?_, hc, ?_, ?_, ?_⟩
  · unfold awaitConn
    rw [hc]
  all_goals
    unfold awaitConn
    rw [hc]
    rfl

/-- Witness for **C3**: a concrete `WS_CONNECTED` session awaited again. -/
theorem c3_connect_when_not_closed_witness :
    awaitConn [] { initConn true true with status := .WS_CONNECTED, ws := true, session := true }
        none none none none =
      (closeConn [] { initConn true true with status := .WS_CONNECTED, ws := true, session := true }
        none,
       some (.usage "Connection is already connected")) :=
  (c3_connect_when_not_closed []
    { initConn true true with status := .WS_CONNECTED, ws := true, session := true }
    none none none none (by decide)).1

/-- Counterexample to **C3** as stated: awaiting an already-`CONNECTED`
session raises the usage error but mutates the session — afterwards the
status is `CLOSED` (not `CONNECTED`) and the transport handles are gone. -/
theorem c3_connect_again_mutates_state :
    (awaitConn [] { initConn true true with status := .CONNECTED, ws := true, session := true }
        none none none none).2 = some (.usage "Connection is already connected")
    ∧ (awaitConn [] { initConn true true with status := .CONNECTED, ws := true, session := true }
        none none none none).1.status = .CLOSED
    ∧ ({ initConn true true with
          status := .CONNECTED, ws := true, session := true } : Conn).status = .CONNECTED
    ∧ (awaitConn [] { initConn true true with status := .CONNECTED, ws := true, session := true }
        none none none none).1.ws = false
    ∧ ({ initConn true true with
          status := .CONNECTED, ws := true, session := true } : Conn).ws = true :=
  ⟨rfl, rfl, rfl, rfl, rfl⟩

/-! ## Exhausted results and the transform shortcut -/

/-- **C8** (confirmed): once a Result's cached row producer is exhausted,
renewed iteration reuses it (it is never recreated) and yields the empty
sequence with no error and no state change, and `fetchone()` returns the
absence value — for any result kind, declared counts, transform and fetch
oracle. -/
theorem c8_exhausted_result {α : Type} (fetchFn : Nat → FetchPage α)
    (transform : List (List α) → List (List α)) (r : ResultM α)
    (h : r.aiterator = some []) :
    fetchallM fetchFn transform r = .ok ([], r)
    ∧ fetchoneM fetchFn transform r = .ok (none, r) := by
  unfold fetchallM fetchoneM
  rw [h]
  exact ⟨rfl, rfl⟩

/-- Witness for **C8**: fully draining a concrete inline result leaves an
exhausted producer, on which `fetchall` yields nothing and `fetchone`
yields the absence value. -/
theorem c8_exhausted_result_witness :
    fetchallM (fun _ => (⟨[], 0⟩ : FetchPage Nat)) pyZip
        { result_type := .RESULTSET, rdata := some [[1, 3], [2, 4]],
          result_handle := none, rowcount := 2, aiterator := none } =
      .ok ([[1, 2], [3, 4]],
        { result_type := .RESULTSET, rdata := none, result_handle := none,
          rowcount := 2, aiterator := some [] })
    ∧ fetchallM (fun _ => (⟨[], 0⟩ : FetchPage Nat)) pyZip
        { result_type := .RESULTSET, rdata := none, result_handle := none,
          rowcount := 2, aiterator := some [] } =
      .ok ([],
        { result_type := .RESULTSET, rdata := none, result_handle := none,
          rowcount := 2, aiterator := some [] })
    ∧ fetchoneM (fun _ => (⟨[], 0⟩ : FetchPage Nat)) pyZip
        { result_type := .RESULTSET, rdata := none, result_handle := none,
          rowcount := 2, aiterator := some [] } =
      .ok (none,
        { result_type := .RESULTSET, rdata := none, result_handle := none,
          rowcount := 2, aiterator := some [] }) :=
  ⟨rfl,
   (c8_exhausted_result (fun _ => (⟨[], 0⟩ : FetchPage Nat)) pyZip
      { result_type := .RESULTSET, rdata := none, result_handle := none,
        rowcount := 2, aiterator := some [] } rfl).1,
   (c8_exhausted_result (fun _ => (⟨[], 0⟩ : FetchPage Nat)) pyZip
      { result_type := .RESULTSET, rdata := none, result_handle := none,
        rowcount := 2, aiterator := some [] } rfl).2⟩

lemma minLen_le {α : Type} (cols : List (List α)) :
    ∀ col ∈ cols, minLen cols ≤ col.length := by
  induction cols with
  | nil =>
    intro col h
    exact absurd h (List.not_mem_nil col)
  | cons c rest ih =>
    intro col h
    cases rest with
    | nil =>
      have hc : col = c := by simpa using h
      subst hc
      exact le_refl _
    | cons c2 rs =>
      rcases List.mem_cons.mp h with rfl | h2
      · exact min_le_left _ _
      · exact le_trans (min_le_right _ _) (ih col h2)

lemma filterMap_getElem_len {α : Type} (cols : List (List α)) (i : Nat)
    (h : ∀ col ∈ cols, i < col.length) :
    (cols.filterMap (fun col => col[i]?)).length = cols.length := by
  induction cols with
  | nil => rfl
  | cons cl rest ih =>
    have hlt : i < cl.length := h cl (List.mem_cons_self cl rest)
    have hc : cl[i]? = some (cl[i]) := List.getElem?_eq_getElem hlt
    have hr := ih (fun col hcol => h col (List.mem_cons_of_mem cl hcol))
    simp [List.filterMap_cons, hc, hr]

lemma pyZip_row_length {α : Type} (cols : List (List α)) (row : List α)
    (hrow : row ∈ pyZip cols) : row.length = cols.length := by
  unfold pyZip at hrow
  cases cols with
  | nil => exact absurd hrow (List.not_mem_nil row)
  | cons c rest =>
    obtain ⟨i, hi, rfl⟩ := List.mem_map.mp hrow
    have hilt : i < minLen (c :: rest) := List.mem_range.mp hi
    exact filterMap_getElem_len (c :: rest) i
      (fun col hcol => lt_of_lt_of_le hilt (minLen_le (c :: rest) col hcol))

lemma applyConvs_id {α : Type} (convs : List (Option (α → α))) (row : List α)
    (hall : ∀ x ∈ convs, x = none) (hlen : row.length ≤ convs.length) :
    applyConvs convs row = row := by
  induction convs generalizing row with
  | nil =>
    cases row with
    | nil => rfl
    | cons v vs => simp at hlen
  | cons cv cvs ih =>
    cases row with
    | nil => rfl
    | cons v vs =>
      have hcv : cv = none := hall cv (List.mem_cons_self cv cvs)
      subst hcv
      have hstep : applyConvs (none :: cvs) (v :: vs) = v :: applyConvs cvs vs := rfl
      rw [hstep, ih vs (fun x hx => hall x (List.mem_cons_of_mem none hx))
        (Nat.le_of_succ_le_succ hlen)]

/-- **C9** (confirmed): when no column requires conversion (every entry of
the converter list is the no-conversion marker and there is a converter per
column), the general per-value conversion path `_transform_rows` produces
exactly the rows of the direct transpose shortcut `zip` on the same
column-major data. -/
theorem c9_transform_equals_zip {α : Type} (convs : List (Option (α → α)))
    (data : List (List α)) (hall : ∀ x ∈ convs, x = none)
    (hlen : data.length ≤ convs.length) :
    transformRows convs data = pyZip data := by
  unfold transformRows
  have hrows : ∀ row ∈ pyZip data, applyConvs convs row = row := fun row hr =>
    applyConvs_id convs row hall (by rw [pyZip_row_length data row hr]; exact hlen)
  rw [List.map_congr_left hrows]
  simp

/-- Witness for **C9**: two unconverted columns transform to their plain
transpose. -/
theorem c9_transform_equals_zip_witness :
    transformRows [none, none] [[1, 2], [10, 20]] = pyZip [[1, 2], [10, 20]]
    ∧ pyZip [[(1 : Nat), 2], [10, 20]] = [[1, 10], [2, 20]] :=
  ⟨c9_transform_equals_zip [none, none] [[1, 2], [10, 20]]
    (by
      intro x hx
      rcases List.mem_cons.mp hx with rfl | hx2
      · rfl
      · rw [List.mem_singleton.mp hx2])
    (by decide),
   rfl⟩

/-! ## HASHTYPE conversion lemmas -/

lemma isPrefixOf_mem {pat s : List Char} (h : pat.isPrefixOf s = true) :
    ∀ y ∈ pat, y ∈ s := by
  induction pat generalizing s with
  | nil =>
    intro y hy
    exact absurd hy (List.not_mem_nil y)
  | cons a as ih =>
    cases s with
    | nil => simp [List.isPrefixOf] at h
    | cons b bs =>
      simp only [List.isPrefixOf, Bool.and_eq_true, beq_iff_eq] at h
      intro y hy
      rcases List.mem_cons.mp hy with rfl | hy2
      · rw [h.1]
        exact List.mem_cons_self b bs
      · exact List.mem_cons_of_mem b (ih h.2 y hy2)

lemma replaceAllAux_no_occ {pat : List Char} {x : Char} (hx : x ∈ pat) :
    ∀ (fuel : Nat) (s : List Char), x ∉ s → replaceAllAux pat fuel s = s := by
  intro fuel
  induction fuel with
  | zero =>
    intro s hs
    cases s with
    | nil => rfl
    | cons ch rest => rfl
  | succ f ih =>
    intro s hs
    cases s with
    | nil => rfl
    | cons ch rest =>
      have hcond : ¬(pat ≠ [] ∧ pat.isPrefixOf (ch :: rest) = true) := by
        rintro ⟨-, hp⟩
        exact hs (isPrefixOf_mem hp x hx)
      have hstep : replaceAllAux pat (f + 1) (ch :: rest) =
          if pat ≠ [] ∧ pat.isPrefixOf (ch :: rest) then
            replaceAllAux pat f ((ch :: rest).drop pat.length)
          else ch :: replaceAllAux pat f rest := rfl
      rw [hstep, if_neg (by simpa using hcond)]
      have hrest : x ∉ rest := fun hmem => hs (List.mem_cons_of_mem ch hmem)
      rw [ih rest hrest]

lemma replaceAll_no_occ {pat : List Char} {x : Char} (hx : x ∈ pat)
    (s : List Char) (hs : x ∉ s) : replaceAll pat s = s :=
  replaceAllAux_no_occ hx s.length s hs

lemma replaceAllAux_dash (s : List Char) :
    ∀ fuel, s.length ≤ fuel →
      replaceAllAux ['-'] fuel s = s.filter (fun ch => !(ch == '-')) := by
  induction s with
  | nil =>
    intro fuel hf
    cases fuel <;> rfl
  | cons ch rest ih =>
    intro fuel hf
    cases fuel with
    | zero => simp at hf
    | succ f =>
      have hstep : replaceAllAux ['-'] (f + 1) (ch :: rest) =
          if (['-'] : List Char) ≠ [] ∧ (['-'] : List Char).isPrefixOf (ch :: rest) then
            replaceAllAux ['-'] f ((ch :: rest).drop 1)
          else ch :: replaceAllAux ['-'] f rest := rfl
      have hlen : rest.length ≤ f := Nat.le_of_succ_le_succ hf
      by_cases hd : ch = '-'
      · subst hd
        rw [hstep, if_pos (by simp [List.isPrefixOf])]
        simp only [List.drop_one, List.tail_cons]
        rw [ih f hlen]
        simp
      · rw [hstep, if_neg (by simp [List.isPrefixOf, Ne.symm hd])]
        rw [ih f hlen]
        simp [hd]

lemma replaceAll_dash (s : List Char) :
    replaceAll ['-'] s = s.filter (fun ch => !(ch == '-')) :=
  replaceAllAux_dash s s.length (le_refl _)

lemma dropWhile_eq_self_of_none {p : Char → Bool} {s : List Char}
    (h : ∀ x ∈ s, p x = false) : s.dropWhile p = s := by
  cases s with
  | nil => rfl
  | cons ch rest => simp [List.dropWhile_cons, h ch (List.mem_cons_self ch rest)]

lemma stripBraces_id {s : List Char} (h : ∀ x ∈ s, isBraceChar x = false) :
    stripBraces s = s := by
  unfold stripBraces
  rw [dropWhile_eq_self_of_none h]
  rw [dropWhile_eq_self_of_none (fun x hx => h x (List.mem_reverse.mp hx))]
  exact List.reverse_reverse s

lemma hex_not_dash {x : Char} (h : isHexDigitB x = true) : ¬(x = '-') := by
  intro heq
  rw [heq] at h
  exact absurd h (by decide)

lemma hex_not_colon {x : Char} (h : isHexDigitB x = true) : ¬(x = ':') := by
  intro heq
  rw [heq] at h
  exact absurd h (by decide)

lemma hex_not_brace {x : Char} (h : isHexDigitB x = true) :
    isBraceChar x = false := by
  cases hb : isBraceChar x with
  | false => rfl
  | true =>
    unfold isBraceChar at hb
    rcases Bool.or_eq_true_iff.mp hb with h1 | h1
    · rw [of_decide_eq_true h1] at h
      exact absurd h (by decide)
    · rw [of_decide_eq_true h1] at h
      exact absurd h (by decide)

/-- The dashed 8-4-4-4-12 UUID spelling built from its five hex groups. -/
def dashJoin (a b cp d e : List Char) : List Char :=
  a ++ '-' :: (b ++ '-' :: (cp ++ '-' :: (d ++ '-' :: e)))

lemma filter_not_dash_of_hex {l : List Char}
    (h : ∀ x ∈ l, isHexDigitB x = true) :
    l.filter (fun ch => !(ch == '-')) = l := by
  rw [List.filter_eq_self]
  intro x hx
  simp [hex_not_dash (h x hx)]

lemma uuidFromChars_dashed (a b cp d e : List Char)
    (ha : a.length = 8) (hb : b.length = 4) (hcp : cp.length = 4)
    (hd : d.length = 4) (he : e.length = 12)
    (hhex : ∀ x ∈ a ++ b ++ cp ++ d ++ e, isHexDigitB x = true) :
    uuidFromChars (dashJoin a b cp d e) = hexPairs (a ++ b ++ cp ++ d ++ e) := by
  have hpart : ∀ x, (x ∈ a ∨ x ∈ b ∨ x ∈ cp ∨ x ∈ d ∨ x ∈ e) →
      isHexDigitB x = true := by
    intro y hy
    apply hhex
    simp only [List.mem_append]
    tauto
  have hmem : ∀ x ∈ dashJoin a b cp d e, x = '-' ∨ isHexDigitB x = true := by
    intro x hx
    by_cases hxd : x = '-'
    · exact Or.inl hxd
    · refine Or.inr (hpart x ?_)
      simp only [dashJoin, List.mem_append, List.mem_cons] at hx
      tauto
  have hnocolon : (':' : Char) ∉ dashJoin a b cp d e := by
    intro hc
    rcases hmem ':' hc with h1 | h1
    · exact absurd h1 (by decide)
    · exact hex_not_colon h1 rfl
  have hnobrace : ∀ x ∈ dashJoin a b cp d e, isBraceChar x = false := by
    intro x hx
    rcases hmem x hx with rfl | h1
    · decide
    · exact hex_not_brace h1
  unfold uuidFromChars
  rw [replaceAll_no_occ (x := ':') (by decide) _ hnocolon,
    replaceAll_no_occ (x := ':') (by decide) _ hnocolon,
    stripBraces_id hnobrace, replaceAll_dash]
  have hfa := filter_not_dash_of_hex (fun x hx => hpart x (Or.inl hx))
  have hfb := filter_not_dash_of_hex (fun x hx => hpart x (Or.inr (Or.inl hx)))
  have hfc := filter_not_dash_of_hex (fun x hx => hpart x (Or.inr (Or.inr (Or.inl hx))))
  have hfd := filter_not_dash_of_hex
    (fun x hx => hpart x (Or.inr (Or.inr (Or.inr (Or.inl hx)))))
  have hfe := filter_not_dash_of_hex
    (fun x hx => hpart x (Or.inr (Or.inr (Or.inr (Or.inr hx)))))
  have hfilter : (dashJoin a b cp d e).filter (fun ch => !(ch == '-')) =
      a ++ b ++ cp ++ d ++ e := by
    simp [dashJoin, List.filter_append, List.filter_cons, hfa, hfb, hfc, hfd, hfe,
      List.append_assoc]
  rw [hfilter]
  have hlen : (a ++ b ++ cp ++ d ++ e).length = 32 := by
    simp [ha, hb, hcp, hd, he]
  rw [if_pos hlen]

/-- **C7** (confirmed): HASHTYPE values are hex strings; for declared size
32 (= 16 bytes hex) a value in dashed UUID form converts to the UUID of
exactly that value, and a plain hex value of the declared size — whatever
the size — converts to the hex-decoded raw bytes.  This holds for both
embedded drafts: `_get_hash` of `resultset.py` and the size-dispatched
`_get_hashtype_converter` of `result.py`. -/
theorem c7_hashtype_converter :
    (∀ (a b cp d e : List Char) (bs : List Nat),
      a.length = 8 → b.length = 4 → cp.length = 4 → d.length = 4 →
      e.length = 12 →
      (∀ x ∈ a ++ b ++ cp ++ d ++ e, isHexDigitB x = true) →
      hexPairs (a ++ b ++ cp ++ d ++ e) = some bs →
      getHash (dashJoin a b cp d e) = some (.uuidVal bs)
      ∧ getHashtypeConverter 32 (dashJoin a b cp d e) = some (.uuidVal bs))
    ∧ (∀ (t : List Char) (size : Nat) (bs : List Nat),
      (∀ x ∈ t, isHexDigitB x = true) → t.length = size →
      hexPairs t = some bs →
      getHash t = some (.bytesVal bs)
      ∧ getHashtypeConverter size t = some (.bytesVal bs)) := by
  constructor
  · intro a b cp d e bs ha hb hcp hd he hhex hbs
    have hdash : ('-' : Char) ∈ dashJoin a b cp d e := by
      unfold dashJoin
      simp
    have huuid := uuidFromChars_dashed a b cp d e ha hb hcp hd he hhex
    have hlen36 : (dashJoin a b cp d e).length = 36 := by
      simp [dashJoin, ha, hb, hcp, hd, he]
    constructor
    · unfold getHash
      rw [if_pos hdash, huuid, hbs]
      rfl
    · unfold getHashtypeConverter
      rw [if_pos rfl]
      unfold getBytesOrUuid
      rw [if_pos hlen36, huuid, hbs]
      rfl
  · intro t size bs hhex hsize hbs
    have hnodash : ('-' : Char) ∉ t := fun hmem =>
      hex_not_dash (hhex '-' hmem) rfl
    constructor
    · unfold getHash
      rw [if_neg hnodash]
      unfold bytesFromHex
      rw [hbs]
      rfl
    · unfold getHashtypeConverter
      by_cases hsz : size = 32
      · rw [if_pos hsz]
        unfold getBytesOrUuid
        have h36 : ¬(t.length = 36) := by
          rw [hsize, hsz]
          decide
        rw [if_neg h36]
        unfold bytesFromHex
        rw [hbs]
        rfl
      · rw [if_neg hsz]
        unfold bytesFromHex
        rw [hbs]
        rfl

/-- Witness for **C7**: the spec's example UUID value and a plain hex
value of another size. -/
theorem c7_hashtype_converter_witness :
    getHash ("550e8400-e29b-11d4-a716-446655440099".toList) =
      some (.uuidVal [85, 14, 132, 0, 226, 155, 17, 212, 167, 22, 68,
        102, 85, 68, 0, 153])
    ∧ getHashtypeConverter 32 ("550e8400-e29b-11d4-a716-446655440099".toList) =
      some (.uuidVal [85, 14, 132, 0, 226, 155, 17, 212, 167, 22, 68,
        102, 85, 68, 0, 153])
    ∧ getHash ("07ff".toList) = some (.bytesVal [7, 255])
    ∧ getHashtypeConverter 4 ("07ff".toList) = some (.bytesVal [7, 255]) := by
  have h1 := c7_hashtype_converter.1 "550e8400".toList "e29b".toList
    "11d4".toList "a716".toList "446655440099".toList
    [85, 14, 132, 0, 226, 155, 17, 212, 167, 22, 68, 102, 85, 68, 0, 153]
    rfl rfl rfl rfl rfl (by decide) (by decide)
  have h2 := c7_hashtype_converter.2 "07ff".toList 4 [7, 255]
    (by decide) rfl (by decide)
  exact ⟨h1.1, h1.2, h2.1, h2.2⟩

/-! ## Pagination lemmas -/

lemma pagesConcat_succ (pageRows : Nat → List β) (j n : Nat) :
    pagesConcat pageRows j (n + 1) = pageRows j ++ pagesConcat pageRows (j + 1) n :=
  rfl

lemma fetchLoop_spec {α : Type} (K R : Nat) (hK : 1 ≤ K)
    (fetchFn : Nat → FetchPage α)
    (transform : List (List α) → List (List α))
    (hpage : ∀ o, o < R → (fetchFn o).numRows = min K (R - o))
    (hrows : ∀ o, o < R → (transform (fetchFn o).pdata).length = min K (R - o)) :
    ∀ (f j : Nat), R - j * K < f →
      fetchLoopFuel fetchFn transform R f (j * K) =
        some ((R - j * K + K - 1) / K,
          pagesConcat (fun i => transform (fetchFn (i * K)).pdata) j
            ((R - j * K + K - 1) / K))
      ∧ (pagesConcat (fun i => transform (fetchFn (i * K)).pdata) j
          ((R - j * K + K - 1) / K)).length = R - j * K := by
  intro f
  induction f with
  | zero =>
    intro j hj
    exact absurd hj (Nat.not_lt_zero _)
  | succ f ih =>
    intro j hj
    by_cases hjR : j * K < R
    · have hstep : fetchLoopFuel fetchFn transform R (f + 1) (j * K) =
          if j * K < R then
            match fetchLoopFuel fetchFn transform R f
                (j * K + (fetchFn (j * K)).numRows) with
            | none => none
            | some (calls, rest) =>
              some (calls + 1, transform (fetchFn (j * K)).pdata ++ rest)
          else some (0, []) := rfl
      have hnum := hpage (j * K) hjR
      have hrowlen := hrows (j * K) hjR
      by_cases hKle : K ≤ R - j * K
      · have hmin : min K (R - j * K) = K := min_eq_left hKle
        have hoff : j * K + (fetchFn (j * K)).numRows = (j + 1) * K := by
          rw [hnum, hmin]
          ring
        have hIH := ih (j + 1) (by
          have h1 : (j + 1) * K = j * K + K := by ring
          omega)
        have hdiv : R - j * K + K - 1 = (R - (j + 1) * K + K - 1) + K := by
          have h1 : (j + 1) * K = j * K + K := by ring
          omega
        rw [hstep, if_pos hjR, hoff, hIH.1]
        have hceil : (R - j * K + K - 1) / K = (R - (j + 1) * K + K - 1) / K + 1 := by
          rw [hdiv, Nat.add_div_right _ (by omega : 0 < K)]
        constructor
        · rw [hceil, pagesConcat_succ]
        · rw [hceil, pagesConcat_succ]
          have h1 : (j + 1) * K = j * K + K := by ring
          simp only [List.length_append, hrowlen, hmin, hIH.2]
          omega
      · have hr1 : 1 ≤ R - j * K := by omega
        have hmin : min K (R - j * K) = R - j * K :=
          min_eq_right (by omega)
        have hoff : j * K + (fetchFn (j * K)).numRows = R := by
          rw [hnum, hmin]
          omega
        have hf1 : 1 ≤ f := by omega
        obtain ⟨f2, rfl⟩ : ∃ f2, f = f2 + 1 := ⟨f - 1, by omega⟩
        have hstop : fetchLoopFuel fetchFn transform R (f2 + 1) R =
            some (0, []) := by
          have h2 : fetchLoopFuel fetchFn transform R (f2 + 1) R =
              if R < R then
                match fetchLoopFuel fetchFn transform R f2
                    (R + (fetchFn R).numRows) with
                | none => none
                | some (calls, rest) =>
                  some (calls + 1, transform (fetchFn R).pdata ++ rest)
              else some (0, []) := rfl
          rw [h2, if_neg (lt_irrefl R)]
        have hceil : (R - j * K + K - 1) / K = 1 :=
          Nat.div_eq_of_lt_le (by omega) (by omega)
        rw [hstep, if_pos hjR, hoff, hstop, hceil]
        constructor
        · rw [pagesConcat_succ]
          have hz : pagesConcat (fun i => transform (fetchFn (i * K)).pdata)
              (j + 1) 0 = [] := rfl
          rw [hz]
        · rw [pagesConcat_succ]
          have hz : pagesConcat (fun i => transform (fetchFn (i * K)).pdata)
              (j + 1) 0 = [] := rfl
          rw [hz]
          simp only [List.length_append, hrowlen, hmin, List.length_nil]
          omega
    · have hstep : fetchLoopFuel fetchFn transform R (f + 1) (j * K) =
          if j * K < R then
            match fetchLoopFuel fetchFn transform R f
                (j * K + (fetchFn (j * K)).numRows) with
            | none => none
            | some (calls, rest) =>
              some (calls + 1, transform (fetchFn (j * K)).pdata ++ rest)
          else some (0, []) := rfl
      have hz : R - j * K = 0 := by omega
      have hceil : (R - j * K + K - 1) / K = 0 := by
        rw [hz]
        exact Nat.div_eq_of_lt (by omega)
      rw [hstep, if_neg hjR, hceil]
      exact ⟨rfl, by rw [hz]; rfl⟩

/-- **C4** (confirmed): for a handle-backed RESULTSET with declared row
count `R`, if every fetch at offset `o < R` reports `numRows = min K (R-o)`
and its data payload transforms to exactly that many rows (page capacity
`K ≥ 1`), then the fetch loop of `_aiterate` terminates, issues exactly
`⌈R/K⌉` fetch calls, and yields exactly `R` rows — the pages at offsets
`0, K, 2K, …` concatenated in order. -/
theorem c4_pagination {α : Type} (K R : Nat) (hK : 1 ≤ K)
    (fetchFn : Nat → FetchPage α)
    (transform : List (List α) → List (List α))
    (hpage : ∀ o, o < R → (fetchFn o).numRows = min K (R - o))
    (hrows : ∀ o, o < R → (transform (fetchFn o).pdata).length = min K (R - o)) :
    fetchLoopFuel fetchFn transform R (R + 1) 0 =
      some ((R + K - 1) / K,
        pagesConcat (fun i => transform (fetchFn (i * K)).pdata) 0 ((R + K - 1) / K))
    ∧ (pagesConcat (fun i => transform (fetchFn (i * K)).pdata) 0
        ((R + K - 1) / K)).length = R := by
  have h := fetchLoop_spec K R hK fetchFn transform hpage hrows (R + 1) 0
    (by simp)
  simpa using h

/-- Witness for **C4**: five rows fetched two per page take three fetch
calls and yield the five rows in order. -/
theorem c4_pagination_witness :
    fetchLoopFuel
        (fun o => (⟨[(List.range (min 2 (5 - o))).map (fun t => o + t)],
          min 2 (5 - o)⟩ : FetchPage Nat))
        pyZip 5 6 0 =
      some ((5 + 2 - 1) / 2,
        pagesConcat
          (fun i => pyZip
            ((fun o => (⟨[(List.range (min 2 (5 - o))).map (fun t => o + t)],
              min 2 (5 - o)⟩ : FetchPage Nat)) (i * 2)).pdata)
          0 ((5 + 2 - 1) / 2))
    ∧ (pagesConcat
        (fun i => pyZip
          ((fun o => (⟨[(List.range (min 2 (5 - o))).map (fun t => o + t)],
            min 2 (5 - o)⟩ : FetchPage Nat)) (i * 2)).pdata)
        0 ((5 + 2 - 1) / 2)).length = 5
    ∧ pagesConcat
        (fun i => pyZip
          ((fun o => (⟨[(List.range (min 2 (5 - o))).map (fun t => o + t)],
            min 2 (5 - o)⟩ : FetchPage Nat)) (i * 2)).pdata)
        0 ((5 + 2 - 1) / 2) = [[0], [1], [2], [3], [4]] := by
  have h := c4_pagination 2 5 (by decide)
    (fun o => (⟨[(List.range (min 2 (5 - o))).map (fun t => o + t)],
      min 2 (5 - o)⟩ : FetchPage Nat))
    pyZip (by decide) (by decide)
  exact ⟨h.1, h.2, by decide⟩

/-! ## Compression framing lemmas -/

lemma applyConnAttrs_framing (zones : List String) (c : Conn)
    (akvs : List (String × JValue)) :
    (applyConnAttrs zones c akvs).1.send_compressed = c.send_compressed
    ∧ (applyConnAttrs zones c akvs).1.recv_compressed = c.recv_compressed
    ∧ (applyConnAttrs zones c akvs).1.use_compression = c.use_compression := by
  unfold applyConnAttrs
  cases hv : pyGet akvs "timezone" <;> exact ⟨rfl, rfl, rfl⟩

lemma recvAttrsStep_framing (zones : List String) (c : Conn)
    (kvs : List (String × JValue)) :
    (recvAttrsStep zones c kvs).1.send_compressed = c.send_compressed
    ∧ (recvAttrsStep zones c kvs).1.recv_compressed = c.recv_compressed
    ∧ (recvAttrsStep zones c kvs).1.use_compression = c.use_compression := by
  unfold recvAttrsStep
  cases hv : pyGet kvs "attributes"
  case obj akvs => exact applyConnAttrs_framing zones c akvs
  all_goals exact ⟨rfl, rfl, rfl⟩

lemma recvStep_framing (zones : List String) (c : Conn) (dec : Option JValue) :
    (recvStep zones c dec).1.send_compressed = c.send_compressed
    ∧ (recvStep zones c dec).1.recv_compressed = c.recv_compressed
    ∧ (recvStep zones c dec).1.use_compression = c.use_compression := by
  cases dec with
  | none => exact ⟨rfl, rfl, rfl⟩
  | some data =>
    cases data with
    | obj kvs =>
      have hfr := recvAttrsStep_framing zones c kvs
      rcases hA : recvAttrsStep zones c kvs with ⟨c1, b⟩
      rw [hA] at hfr
      have hred : recvStep zones c (some (.obj kvs)) =
          (match recvAttrsStep zones c kvs with
           | (c1, true) => (c1, .pyError "AttributeError")
           | (c1, false) => recvStatusStep c1 kvs (.obj kvs)) := rfl
      rw [hred, hA]
      cases b with
      | true => exact hfr
      | false =>
        have h1 := recvStatusStep_fst c1 kvs (.obj kvs)
        refine ⟨?_, ?_, ?_⟩
        · show (recvStatusStep c1 kvs (.obj kvs)).1.send_compressed = _
          rw [h1]
          exact hfr.1
        · show (recvStatusStep c1 kvs (.obj kvs)).1.recv_compressed = _
          rw [h1]
          exact hfr.2.1
        · show (recvStatusStep c1 kvs (.obj kvs)).1.use_compression = _
          rw [h1]
          exact hfr.2.2
    | null => exact ⟨rfl, rfl, rfl⟩
    | bool b => exact ⟨rfl, rfl, rfl⟩
    | num n => exact ⟨rfl, rfl, rfl⟩
    | str s => exact ⟨rfl, rfl, rfl⟩
    | arr a => exact ⟨rfl, rfl, rfl⟩

lemma requestOp_framing (zones : List String) (c : Conn) (r : Option JValue) :
    (requestOp zones c r).1.send_compressed = c.send_compressed
    ∧ (requestOp zones c r).1.recv_compressed = c.recv_compressed
    ∧ (requestOp zones c r).1.use_compression = c.use_compression := by
  unfold requestOp
  split
  · exact recvStep_framing zones c r
  · exact ⟨rfl, rfl, rfl⟩

lemma requestOp_events (zones : List String) (c : Conn) (r : Option JValue) :
    ∀ ev ∈ (requestOp zones c r).2.2, ev = c.send_compressed := by
  unfold requestOp
  split
  · intro ev hev
    simpa using hev
  · intro ev hev
    exact absurd hev (List.not_mem_nil ev)

lemma closeConn_framing (zones : List String) (c : Conn) (r : Option JValue) :
    (closeConn zones c r).send_compressed = c.send_compressed
    ∧ (closeConn zones c r).recv_compressed = c.recv_compressed
    ∧ (closeConn zones c r).use_compression = c.use_compression := by
  unfold closeConn
  split
  · split
    · exact recvStep_framing zones { c with status := .DISCONNECTING } r
    · exact ⟨rfl, rfl, rfl⟩
  · exact ⟨rfl, rfl, rfl⟩

lemma closeSends_events (c : Conn) :
    ∀ ev ∈ closeSends c, ev = c.send_compressed := by
  unfold closeSends
  split
  · intro ev hev
    simpa using hev
  · intro ev hev
    exact absurd hev (List.not_mem_nil ev)

lemma loginConn_spec (zones : List String) (c : Conn) (r1 r2 : Option JValue) :
    ((loginConn zones c r1 r2).1.send_compressed =
      (c.send_compressed || (c.use_compression && loginOk zones c r1 r2)))
    ∧ ((loginConn zones c r1 r2).1.recv_compressed =
      (c.recv_compressed || (c.use_compression && loginOk zones c r1 r2)))
    ∧ ((loginConn zones c r1 r2).1.use_compression = c.use_compression)
    ∧ (∀ ev ∈ (loginConn zones c r1 r2).2.2, ev = c.send_compressed) := by
  have hf1 := requestOp_framing zones c r1
  have he1 := requestOp_events zones c r1
  have hf2 := requestOp_framing zones (requestOp zones c r1).1 r2
  have he2 := requestOp_events zones (requestOp zones c r1).1 r2
  by_cases hst : c.status = .WS_CONNECTED
  · cases ho1 : (requestOp zones c r1).2.1 with
    | ok d1 =>
      cases d1 with
      | obj kvs1 =>
        cases hrd : objGet kvs1 "responseData" with
        | none =>
          simp only [loginOk, loginConn, if_pos hst, ho1, hrd]
          refine ⟨by simp [hf1.1], by simp [hf1.2.1], hf1.2.2, he1⟩
        | some rdv =>
          cases rdv with
          | obj rd =>
            cases hpem : objGet rd "publicKeyPem" with
            | none =>
              simp only [loginOk, loginConn, if_pos hst, ho1, hrd, hpem]
              refine ⟨by simp [hf1.1], by simp [hf1.2.1], hf1.2.2, he1⟩
            | some pem =>
              cases ho2 : (requestOp zones (requestOp zones c r1).1 r2).2.1 with
              | ok d2 =>
                simp only [loginOk, loginConn, if_pos hst, ho1, hrd, hpem, ho2]
                have hu2 : (requestOp zones (requestOp zones c r1).1 r2).1.use_compression =
                    c.use_compression := by
                  rw [hf2.2.2, hf1.2.2]
                have hs2 : (requestOp zones (requestOp zones c r1).1 r2).1.send_compressed =
                    c.send_compressed := by
                  rw [hf2.1, hf1.1]
                have hr2 : (requestOp zones (requestOp zones c r1).1 r2).1.recv_compressed =
                    c.recv_compressed := by
                  rw [hf2.2.1, hf1.2.1]
                refine ⟨?_, ?_, ?_, ?_⟩
                · cases hu : c.use_compression
                  · simp [hu2, hu, hs2]
                  · simp [hu2, hu]
                · cases hu : c.use_compression
                  · simp [hu2, hu, hr2]
                  · simp [hu2, hu]
                · cases hu : c.use_compression
                  · simp [hu2, hu]
                  · simp [hu2, hu]
                · intro ev hev
                  rcases List.mem_append.mp hev with h | h
                  · exact he1 ev h
                  · rw [he2 ev h]
                    exact hf1.1
              | protocolError m =>
                simp only [loginOk, loginConn, if_pos hst, ho1, hrd, hpem, ho2, outcomeErr]
                refine ⟨by simp [hf2.1, hf1.1], by simp [hf2.2.1, hf1.2.1],
                  by rw [hf2.2.2, hf1.2.2], ?_⟩
                intro ev hev
                rcases List.mem_append.mp hev with h | h
                · exact he1 ev h
                · rw [he2 ev h]
                  exact hf1.1
              | serverError code text =>
                simp only [loginOk, loginConn, if_pos hst, ho1, hrd, hpem, ho2, outcomeErr]
                refine ⟨by simp [hf2.1, hf1.1], by simp [hf2.2.1, hf1.2.1],
                  by rw [hf2.2.2, hf1.2.2], ?_⟩
                intro ev hev
                rcases List.mem_append.mp hev with h | h
                · exact he1 ev h
                · rw [he2 ev h]
                  exact hf1.1
              | pyError m =>
                simp only [loginOk, loginConn, if_pos hst, ho1, hrd, hpem, ho2, outcomeErr]
                refine ⟨by simp [hf2.1, hf1.1], by simp [hf2.2.1, hf1.2.1],
                  by rw [hf2.2.2, hf1.2.2], ?_⟩
                intro ev hev
                rcases List.mem_append.mp hev with h | h
                · exact he1 ev h
                · rw [he2 ev h]
                  exact hf1.1
          | null =>
            simp only [loginOk, loginConn, if_pos hst, ho1, hrd]
            refine ⟨by simp [hf1.1], by simp [hf1.2.1], hf1.2.2, he1⟩
          | bool b =>
            simp only [loginOk, loginConn, if_pos hst, ho1, hrd]
            refine ⟨by simp [hf1.1], by simp [hf1.2.1], hf1.2.2, he1⟩
          | num n =>
            simp only [loginOk, loginConn, if_pos hst, ho1, hrd]
            refine ⟨by simp [hf1.1], by simp [hf1.2.1], hf1.2.2, he1⟩
          | str s =>
            simp only [loginOk, loginConn, if_pos hst, ho1, hrd]
            refine ⟨by simp [hf1.1], by simp [hf1.2.1], hf1.2.2, he1⟩
          | arr a =>
            simp only [loginOk, loginConn, if_pos hst, ho1, hrd]
            refine ⟨by simp [hf1.1], by simp [hf1.2.1], hf1.2.2, he1⟩
      | null =>
        simp only [loginOk, loginConn, if_pos hst, ho1]
        refine ⟨by simp [hf1.1], by simp [hf1.2.1], hf1.2.2, he1⟩
      | bool b =>
        simp only [loginOk, loginConn, if_pos hst, ho1]
        refine ⟨by simp [hf1.1], by simp [hf1.2.1], hf1.2.2, he1⟩
      | num n =>
        simp only [loginOk, loginConn, if_pos hst, ho1]
        refine ⟨by simp [hf1.1], by simp [hf1.2.1], hf1.2.2, he1⟩
      | str s =>
        simp only [loginOk, loginConn, if_pos hst, ho1]
        refine ⟨by simp [hf1.1], by simp [hf1.2.1], hf1.2.2, he1⟩
      | arr a =>
        simp only [loginOk, loginConn, if_pos hst, ho1]
        refine ⟨by simp [hf1.1], by simp [hf1.2.1], hf1.2.2, he1⟩
    | protocolError m =>
      simp only [loginOk, loginConn, if_pos hst, ho1, outcomeErr]
      refine ⟨by simp [hf1.1], by simp [hf1.2.1], hf1.2.2, he1⟩
    | serverError code text =>
      simp only [loginOk, loginConn, if_pos hst, ho1, outcomeErr]
      refine ⟨by simp [hf1.1], by simp [hf1.2.1], hf1.2.2, he1⟩
    | pyError m =>
      simp only [loginOk, loginConn, if_pos hst, ho1, outcomeErr]
      refine ⟨by simp [hf1.1], by simp [hf1.2.1], hf1.2.2, he1⟩
  · simp only [loginOk, loginConn, if_neg hst]
    split
    · refine ⟨by simp, by simp, rfl, ?_⟩
      intro ev hev
      exact absurd hev (List.not_mem_nil ev)
    · refine ⟨by simp, by simp, rfl, ?_⟩
      intro ev hev
      exact absurd hev (List.not_mem_nil ev)

lemma bool_merge (x u p q : Bool) :
    ((x || (u && p)) || (u && q)) = (x || (u && (p || q))) := by
  cases x <;> cases u <;> cases p <;> cases q <;> rfl

lemma stepConn_spec (zones : List String) (c : Conn) (op : ConnOp) :
    ((stepConn zones c op).1.send_compressed =
      (c.send_compressed || (c.use_compression && opLoginSuccess zones c op)))
    ∧ ((stepConn zones c op).1.recv_compressed =
      (c.recv_compressed || (c.use_compression && opLoginSuccess zones c op)))
    ∧ ((stepConn zones c op).1.use_compression = c.use_compression)
    ∧ (∀ ev ∈ (stepConn zones c op).2, ev = c.send_compressed) := by
  cases op with
  | cConnect =>
    simp only [stepConn, connectConn, opLoginSuccess, Bool.and_false, Bool.or_false]
    by_cases hcs : c.status = .CLOSED
    · rw [if_pos hcs]
      exact ⟨rfl, rfl, rfl, fun ev hev => absurd hev (List.not_mem_nil ev)⟩
    · rw [if_neg hcs]
      exact ⟨rfl, rfl, rfl, fun ev hev => absurd hev (List.not_mem_nil ev)⟩
  | cLogin r1 r2 =>
    have h := loginConn_spec zones c r1 r2
    exact ⟨h.1, h.2.1, h.2.2.1, h.2.2.2⟩
  | cGetAttributes r =>
    have hf := requestOp_framing zones c r
    simp only [stepConn, opLoginSuccess, Bool.and_false, Bool.or_false]
    exact ⟨hf.1, hf.2.1, hf.2.2, requestOp_events zones c r⟩
  | cExecute r =>
    have hf := requestOp_framing zones c r
    simp only [stepConn, opLoginSuccess, Bool.and_false, Bool.or_false]
    exact ⟨hf.1, hf.2.1, hf.2.2, requestOp_events zones c r⟩
  | cFetch r =>
    have hf := requestOp_framing zones c r
    simp only [stepConn, opLoginSuccess, Bool.and_false, Bool.or_false]
    exact ⟨hf.1, hf.2.1, hf.2.2, requestOp_events zones c r⟩
  | cCloseResults r =>
    simp only [stepConn, opLoginSuccess, Bool.and_false, Bool.or_false]
    split
    · have hf := requestOp_framing zones c r
      exact ⟨hf.1, hf.2.1, hf.2.2, requestOp_events zones c r⟩
    · exact ⟨rfl, rfl, rfl, fun ev hev => absurd hev (List.not_mem_nil ev)⟩
  | cClose r =>
    have hf := closeConn_framing zones c r
    simp only [stepConn, opLoginSuccess, Bool.and_false, Bool.or_false]
    exact ⟨hf.1, hf.2.1, hf.2.2, closeSends_events c⟩

lemma runConn_spec (zones : List String) :
    ∀ (ops : List ConnOp) (c : Conn),
      ((runConn zones c ops).1.send_compressed =
        (c.send_compressed || (c.use_compression && anyLoginSuccess zones c ops)))
      ∧ ((runConn zones c ops).1.recv_compressed =
        (c.recv_compressed || (c.use_compression && anyLoginSuccess zones c ops)))
      ∧ ((runConn zones c ops).1.use_compression = c.use_compression)
      ∧ (c.send_compressed = false → anyLoginSuccess zones c ops = false →
          ∀ ev ∈ (runConn zones c ops).2, ev = false)
      ∧ (c.send_compressed = true → ∀ ev ∈ (runConn zones c ops).2, ev = true)
      ∧ (c.use_compression = false → c.send_compressed = false →
          ∀ ev ∈ (runConn zones c ops).2, ev = false) := by
  intro ops
  induction ops with
  | nil =>
    intro c
    refine ⟨by simp [runConn, anyLoginSuccess], by simp [runConn, anyLoginSuccess],
      rfl, ?_, ?_, ?_⟩
    · intro _ _ ev hev
      exact absurd hev (List.not_mem_nil ev)
    · intro _ ev hev
      exact absurd hev (List.not_mem_nil ev)
    · intro _ _ ev hev
      exact absurd hev (List.not_mem_nil ev)
  | cons op rest ih =>
    intro c
    have hstep := stepConn_spec zones c op
    have hIH := ih (stepConn zones c op).1
    have hrun1 : (runConn zones c (op :: rest)).1 =
        (runConn zones (stepConn zones c op).1 rest).1 := rfl
    have hrun2 : (runConn zones c (op :: rest)).2 =
        (stepConn zones c op).2 ++ (runConn zones (stepConn zones c op).1 rest).2 := rfl
    have hany : anyLoginSuccess zones c (op :: rest) =
        (opLoginSuccess zones c op ||
          anyLoginSuccess zones (stepConn zones c op).1 rest) := rfl
    refine ⟨?_, ?_, ?_, ?_, ?_, ?_⟩
    · rw [hrun1, hIH.1, hstep.1, hstep.2.2.1, hany]
      exact bool_merge _ _ _ _
    · rw [hrun1, hIH.2.1, hstep.2.1, hstep.2.2.1, hany]
      exact bool_merge _ _ _ _
    · rw [hrun1, hIH.2.2.1, hstep.2.2.1]
    · intro h0 hl
      rw [hany] at hl
      obtain ⟨hl1, hl2⟩ := Bool.or_eq_false_iff.mp hl
      have hs0 : (stepConn zones c op).1.send_compressed = false := by
        rw [hstep.1, h0, hl1]
        simp
      intro ev hev
      rw [hrun2] at hev
      rcases List.mem_append.mp hev with h | h
      · exact (hstep.2.2.2 ev h).trans h0
      · exact hIH.2.2.2.1 hs0 hl2 ev h
    · intro h1 ev hev
      have hs1 : (stepConn zones c op).1.send_compressed = true := by
        rw [hstep.1, h1]
        simp
      rw [hrun2] at hev
      rcases List.mem_append.mp hev with h | h
      · exact (hstep.2.2.2 ev h).trans h1
      · exact hIH.2.2.2.2.1 hs1 ev h
    · intro hu h0 ev hev
      have hs0 : (stepConn zones c op).1.send_compressed = false := by
        rw [hstep.1, h0, hu]
        simp
      have hu2 : (stepConn zones c op).1.use_compression = false := by
        rw [hstep.2.2.1, hu]
      rw [hrun2] at hev
      rcases List.mem_append.mp hev with h | h
      · exact (hstep.2.2.2 ev h).trans h0
      · exact hIH.2.2.2.2.2 hu2 hs0 ev h

/-- **C5** (confirmed): a session constructed with compression disabled
never switches framing over any operation trace — framing stays plain and
every frame sent is plain.  A session constructed with compression enabled
has compressed framing exactly when some login of the trace has succeeded
(so the single switch happens at the successful login and nowhere else):
every frame sent while no login has succeeded — including the login's own
two frames — is plain, and every frame sent from any state reached after a
successful login is compressed. -/
theorem c5_compression_switch (zones : List String) (a : Bool) (ops : List ConnOp) :
    ((runConn zones (initConn false a) ops).1.send_compressed = false
     ∧ (runConn zones (initConn false a) ops).1.recv_compressed = false
     ∧ ∀ ev ∈ (runConn zones (initConn false a) ops).2, ev = false)
    ∧ ((runConn zones (initConn true a) ops).1.send_compressed =
        anyLoginSuccess zones (initConn true a) ops
       ∧ (runConn zones (initConn true a) ops).1.recv_compressed =
        anyLoginSuccess zones (initConn true a) ops)
    ∧ (∀ l1 l2 : List ConnOp,
        (anyLoginSuccess zones (initConn true a) l1 = false →
          ∀ ev ∈ (runConn zones (initConn true a) l1).2, ev = false)
        ∧ (anyLoginSuccess zones (initConn true a) l1 = true →
          ∀ ev ∈ (runConn zones (runConn zones (initConn true a) l1).1 l2).2,
            ev = true)) := by
  refine ⟨⟨?_, ?_, ?_⟩, ⟨?_, ?_⟩, ?_⟩
  · have h := (runConn_spec zones ops (initConn false a)).1
    simpa using h
  · have h := (runConn_spec zones ops (initConn false a)).2.1
    simpa using h
  · exact (runConn_spec zones ops (initConn false a)).2.2.2.2.2 rfl rfl
  · have h := (runConn_spec zones ops (initConn true a)).1
    simpa using h
  · have h := (runConn_spec zones ops (initConn true a)).2.1
    simpa using h
  · intro l1 l2
    constructor
    · intro hany
      exact (runConn_spec zones l1 (initConn true a)).2.2.2.1 rfl hany
    · intro hany
      have hs : (runConn zones (initConn true a) l1).1.send_compressed = true := by
        rw [(runConn_spec zones l1 (initConn true a)).1, hany]
        rfl
      exact (runConn_spec zones l2
        (runConn zones (initConn true a) l1).1).2.2.2.2.1 hs

/-- Witness for **C5**: connect, a successful login, then an execute.  The
two login frames go out plain, the execute frame is compressed, and the
final framing flag is set iff compression was requested. -/
theorem c5_compression_switch_witness :
    (runConn [] (initConn true true)
      [ConnOp.cConnect,
       ConnOp.cLogin (some (.obj [("status", .str "ok"),
         ("responseData", .obj [("publicKeyPem", .str "k")])]))
         (some (.obj [("status", .str "ok")])),
       ConnOp.cExecute (some (.obj [("status", .str "ok")]))]).1.send_compressed = true
    ∧ (runConn [] (initConn false true)
      [ConnOp.cConnect,
       ConnOp.cLogin (some (.obj [("status", .str "ok"),
         ("responseData", .obj [("publicKeyPem", .str "k")])]))
         (some (.obj [("status", .str "ok")])),
       ConnOp.cExecute (some (.obj [("status", .str "ok")]))]).1.send_compressed = false
    ∧ (runConn [] (initConn true true)
      [ConnOp.cConnect,
       ConnOp.cLogin (some (.obj [("status", .str "ok"),
         ("responseData", .obj [("publicKeyPem", .str "k")])]))
         (some (.obj [("status", .str "ok")])),
       ConnOp.cExecute (some (.obj [("status", .str "ok")]))]).2 =
      [false, false, true] := by
  refine ⟨?_, ?_, rfl⟩
  · rw [(c5_compression_switch [] true
      [ConnOp.cConnect,
       ConnOp.cLogin (some (.obj [("status", .str "ok"),
         ("responseData", .obj [("publicKeyPem", .str "k")])]))
         (some (.obj [("status", .str "ok")])),
       ConnOp.cExecute (some (.obj [("status", .str "ok")]))]).2.1.1]
    rfl
  · exact (c5_compression_switch [] true
      [ConnOp.cConnect,
       ConnOp.cLogin (some (.obj [("status", .str "ok"),
         ("responseData", .obj [("publicKeyPem", .str "k")])]))
         (some (.obj [("status", .str "ok")])),
       ConnOp.cExecute (some (.obj [("status", .str "ok")]))]).1.1

end Exasyncio
